import Mathlib

/-!
Verification of the Noko API client (`noko_client/client.py`) against its
natural-language specification.

The client methods are embedded directly from `client.py`.  The helper
utilities (`date_to_string`, `timestamp_to_string`, `list_to_list_of_integers`)
and the pydantic parameter schemas live in modules that are not part of the
sources at hand; those are modelled from the specification, as indicated in
their doc comments.  The HTTP transport (`fetch_json` of `BaseClient`) is an
external collaborator and is modelled as an abstract function from requests to
parsed JSON.
-/

namespace Noko

/-! ## Characters and decimal digits -/

/-- The decimal digit character for `d` (`0`–`9` for `d < 10`). -/
def digitChar (d : Nat) : Char := Char.ofNat (48 + d)

/-- Whether `c` is a decimal digit character. -/
def isDigitChar (c : Char) : Bool := decide (48 ≤ c.toNat) && decide (c.toNat ≤ 57)

/-- The numeric value of a digit character. -/
def charToDigit (c : Char) : Nat := c.toNat - 48

theorem isDigitChar_digitChar {d : Nat} (h : d < 10) : isDigitChar (digitChar d) = true := by
  interval_cases d <;> decide

theorem isDigitChar_digitChar_mod (n : Nat) : isDigitChar (digitChar (n % 10)) = true :=
  isDigitChar_digitChar (Nat.mod_lt _ (by omega))

theorem charToDigit_digitChar {d : Nat} (h : d < 10) : charToDigit (digitChar d) = d := by
  interval_cases d <;> decide

theorem digitChar_ne_minus {d : Nat} (h : d < 10) : digitChar d ≠ '-' := by
  interval_cases d <;> decide

theorem digitChar_ne_comma {d : Nat} (h : d < 10) : digitChar d ≠ ',' := by
  interval_cases d <;> decide

/-! ## Printing and parsing integers (the model of Python `str`/`int`) -/

/-- Fuel-driven digit extraction; the fuel only bounds the recursion depth. -/
def natDigitsAux : Nat → Nat → List Char
  | 0, _ => []
  | fuel + 1, n =>
    if n < 10 then [digitChar n]
    else natDigitsAux fuel (n / 10) ++ [digitChar (n % 10)]

/-- Decimal digit characters of a natural number, most significant first. -/
def natDigits (n : Nat) : List Char := natDigitsAux (n + 1) n

/-- Numeric value of a list of digit characters. -/
def digitsVal (cs : List Char) : Nat :=
  cs.foldl (fun a c => a * 10 + charToDigit c) 0

/-- Parse a nonempty all-digit character list as a natural number. -/
def parseNatChars (cs : List Char) : Option Nat :=
  if cs.isEmpty then none
  else if cs.all isDigitChar then some (digitsVal cs) else none

/-- Parse an optionally `-`-signed digit string as an integer. -/
def parseIntChars : List Char → Option Int
  | '-' :: rest => (parseNatChars rest).map (fun m => -(m : Int))
  | cs => (parseNatChars cs).map (fun m => (m : Int))

/-- Decimal representation of an integer, the model of Python `str(int)`. -/
def printInt (n : Int) : List Char :=
  if n < 0 then '-' :: natDigits n.natAbs else natDigits n.natAbs

theorem digitsVal_append_single (cs : List Char) (c : Char) :
    digitsVal (cs ++ [c]) = digitsVal cs * 10 + charToDigit c := by
  simp [digitsVal, List.foldl_append]

theorem natDigitsAux_spec :
    ∀ (fuel n : Nat), n < fuel →
      natDigitsAux fuel n ≠ [] ∧ (natDigitsAux fuel n).all isDigitChar = true ∧
      digitsVal (natDigitsAux fuel n) = n := by
  intro fuel
  induction fuel with
  | zero => intro n hn; omega
  | succ fuel ih =>
    intro n hn
    rw [natDigitsAux]
    split
    · next h =>
      refine ⟨by simp, by simp [isDigitChar_digitChar h], ?_⟩
      simp [digitsVal, charToDigit_digitChar h]
    · next h =>
      have hdiv : n / 10 < n := Nat.div_lt_self (by omega) (by omega)
      have hfuel : n / 10 < fuel := by omega
      obtain ⟨h1, h2, h3⟩ := ih (n / 10) hfuel
      refine ⟨by simp, ?_, ?_⟩
      · simp only [List.all_append, h2]
        simp [isDigitChar_digitChar_mod]
      · rw [digitsVal_append_single, h3, charToDigit_digitChar (Nat.mod_lt _ (by omega))]
        omega

theorem natDigits_ne_nil (n : Nat) : natDigits n ≠ [] :=
  (natDigitsAux_spec (n + 1) n (by omega)).1

theorem natDigits_all_digits (n : Nat) : (natDigits n).all isDigitChar = true :=
  (natDigitsAux_spec (n + 1) n (by omega)).2.1

theorem digitsVal_natDigits (n : Nat) : digitsVal (natDigits n) = n :=
  (natDigitsAux_spec (n + 1) n (by omega)).2.2

theorem parseNatChars_natDigits (n : Nat) : parseNatChars (natDigits n) = some n := by
  unfold parseNatChars
  simp [natDigits_all_digits, List.isEmpty_iff, natDigits_ne_nil n, digitsVal_natDigits]

theorem natDigits_head_digit (n : Nat) :
    ∃ c cs, natDigits n = c :: cs ∧ isDigitChar c = true := by
  have hall := natDigits_all_digits n
  have hne := natDigits_ne_nil n
  cases h : natDigits n with
  | nil => exact absurd h hne
  | cons c cs =>
    refine ⟨c, cs, rfl, ?_⟩
    rw [h] at hall
    simp only [List.all_cons, Bool.and_eq_true] at hall
    exact hall.1

theorem parseIntChars_printInt (n : Int) : parseIntChars (printInt n) = some n := by
  unfold printInt
  split
  · next h =>
    show parseIntChars ('-' :: natDigits n.natAbs) = some n
    rw [parseIntChars]
    rw [parseNatChars_natDigits]
    show some (-(n.natAbs : Int)) = some n
    congr 1
    omega
  · next h =>
    obtain ⟨c, cs, hcons, hdig⟩ := natDigits_head_digit n.natAbs
    rw [hcons]
    have hc : c ≠ '-' := by
      intro heq
      rw [heq] at hdig
      exact absurd hdig (by decide)
    rw [show parseIntChars (c :: cs) = (parseNatChars (c :: cs)).map (fun m => (m : Int)) by
      unfold parseIntChars
      split
      · next heq => rw [List.cons.injEq] at heq; exact absurd heq.1 hc
      · rfl]
    rw [← hcons, parseNatChars_natDigits]
    show some ((n.natAbs : Int)) = some n
    congr 1
    omega

/-! ## Comma-separated strings -/

/-- Split a character list on commas, accumulating the current part. -/
def splitCommaAux : List Char → List Char → List (List Char)
  | [], acc => [acc]
  | c :: rest, acc =>
    if c = ',' then acc :: splitCommaAux rest []
    else splitCommaAux rest (acc ++ [c])

/-- Split a character list on commas. -/
def splitComma (cs : List Char) : List (List Char) := splitCommaAux cs []

/-- Join parts with commas in between. -/
def joinComma : List (List Char) → List Char
  | [] => []
  | [p] => p
  | p :: ps => p ++ ',' :: joinComma ps

theorem splitCommaAux_comma_free (p : List Char) (hp : ',' ∉ p) :
    ∀ (cs acc : List Char), splitCommaAux (p ++ cs) acc = splitCommaAux cs (acc ++ p) := by
  induction p with
  | nil => intro cs acc; simp
  | cons c p ih =>
    intro cs acc
    have hc : c ≠ ',' := fun h => hp (h ▸ List.mem_cons_self c p)
    have hp' : ',' ∉ p := fun h => hp (List.mem_cons_of_mem c h)
    simp only [List.cons_append, splitCommaAux, if_neg hc, List.append_eq]
    rw [ih hp' cs (acc ++ [c])]
    simp

theorem splitComma_joinComma (parts : List (List Char)) (hne : parts ≠ [])
    (hfree : ∀ p ∈ parts, ',' ∉ p) :
    splitComma (joinComma parts) = parts := by
  induction parts with
  | nil => exact absurd rfl hne
  | cons p ps ih =>
    cases ps with
    | nil =>
      show splitCommaAux p [] = [p]
      have h1 := splitCommaAux_comma_free p (hfree p (List.mem_cons_self p [])) [] []
      simpa [splitCommaAux] using h1
    | cons q qs =>
      show splitCommaAux (p ++ ',' :: joinComma (q :: qs)) [] = p :: q :: qs
      rw [splitCommaAux_comma_free p (hfree p (List.mem_cons_self p _)) _ []]
      simp only [List.nil_append, splitCommaAux]
      rw [show splitCommaAux (joinComma (q :: qs)) [] = splitComma (joinComma (q :: qs)) from rfl]
      rw [ih (by simp) (fun r hr => hfree r (List.mem_cons_of_mem p hr))]
      simp

theorem printInt_comma_free (n : Int) : ',' ∉ printInt n := by
  have hnat : ∀ m : Nat, ',' ∉ natDigits m := by
    intro m
    intro hmem
    have hall := natDigits_all_digits m
    rw [List.all_eq_true] at hall
    have := hall _ hmem
    exact absurd this (by decide)
  unfold printInt
  split
  · intro hmem
    rcases List.mem_cons.mp hmem with h | h
    · exact absurd h (by decide)
    · exact hnat _ h
  · exact hnat _

/-! ## Python value model -/

/-- A Python `str | int` identifier argument. -/
inductive PyId where
  | int (n : Int)
  | str (s : String)
  deriving DecidableEq

/-- A Python `datetime.date` object. -/
structure PyDate where
  year : Nat
  month : Nat
  day : Nat
  deriving DecidableEq

/-- A Python `datetime.datetime` object. -/
structure PyDatetime where
  year : Nat
  month : Nat
  day : Nat
  hour : Nat
  minute : Nat
  second : Nat
  deriving DecidableEq

/-- A caller-supplied keyword-argument value. -/
inductive PyValue where
  | int (n : Int)
  | str (s : String)
  | bool (b : Bool)
  | pylist (xs : List PyId)
  | date (d : PyDate)
  | datetime (dt : PyDatetime)
  deriving DecidableEq

/-- Parsed JSON, as produced for request bodies and by the transport. -/
inductive Json where
  | null
  | str (s : String)
  | num (n : Int)
  | jbool (b : Bool)
  | arr (xs : List Json)

/-- Validation failure raised by the parameter normalizer. -/
inductive NokoError where
  | validation (msg : String)
  deriving DecidableEq

/-- Python `str()` interpolation of an ID into an f-string. -/
def pyIdToString : PyId → String
  | .int n => String.mk (printInt n)
  | .str s => s

/-- An ID placed into a JSON body exactly as supplied. -/
def pyIdToJson : PyId → Json
  | .int n => .num n
  | .str s => .str s

/-- Error-propagating map over a list, the model of iterating validation
over fields or elements. -/
def mapE (f : α → Except NokoError β) : List α → Except NokoError (List β)
  | [] => .ok []
  | x :: xs =>
    match f x with
    | .error e => .error e
    | .ok y =>
      match mapE f xs with
      | .error e => .error e
      | .ok ys => .ok (y :: ys)

theorem mapE_ok_of_mem {f : α → Except NokoError β} {xs : List α} {ys : List β}
    (h : mapE f xs = .ok ys) : ∀ x ∈ xs, ∃ y, f x = .ok y := by
  induction xs generalizing ys with
  | nil => intro x hx; exact absurd hx (List.not_mem_nil x)
  | cons a as ih =>
    intro x hx
    rw [mapE] at h
    cases hfa : f a with
    | error e => rw [hfa] at h; exact absurd h (by simp)
    | ok y =>
      rw [hfa] at h
      cases hrec : mapE f as with
      | error e => rw [hrec] at h; exact absurd h (by simp)
      | ok ys' =>
        rcases List.mem_cons.mp hx with hx | hx
        · exact ⟨y, hx ▸ hfa⟩
        · exact ih hrec x hx

theorem mapE_error_of_mem {f : α → Except NokoError β} {xs : List α} {x : α}
    (hx : x ∈ xs) (hfail : ∀ y, ¬ f x = .ok y) : ∃ e, mapE f xs = .error e := by
  cases h : mapE f xs with
  | error e => exact ⟨e, rfl⟩
  | ok ys =>
    obtain ⟨y, hy⟩ := mapE_ok_of_mem h x hx
    exact absurd hy (hfail y)

theorem mapE_forall₂ {f : α → Except NokoError β} {xs : List α} {ys : List β}
    (h : mapE f xs = .ok ys) : List.Forall₂ (fun x y => f x = .ok y) xs ys := by
  induction xs generalizing ys with
  | nil =>
    rw [mapE] at h
    cases h
    exact List.Forall₂.nil
  | cons a as ih =>
    rw [mapE] at h
    cases hfa : f a with
    | error e => rw [hfa] at h; exact absurd h (by simp)
    | ok y =>
      rw [hfa] at h
      cases hrec : mapE f as with
      | error e => rw [hrec] at h; exact absurd h (by simp)
      | ok ys' =>
        rw [hrec] at h
        cases h
        exact List.Forall₂.cons hfa (ih hrec)

theorem forall₂_map_eq {R : α → β → Prop} {g : β → γ} {h : α → γ}
    (hR : ∀ a b, R a b → g b = h a) :
    ∀ {xs : List α} {ys : List β}, List.Forall₂ R xs ys → ys.map g = xs.map h := by
  intro xs ys hf
  induction hf with
  | nil => rfl
  | cons hab _ ih =>
    simp only [List.map_cons, List.cons.injEq]
    exact ⟨hR _ _ hab, ih⟩

theorem mapE_map_eq {f : α → Except NokoError β} {g : β → γ} {h : α → γ}
    {xs : List α} {ys : List β} (hfg : ∀ a b, f a = .ok b → g b = h a)
    (hok : mapE f xs = .ok ys) : ys.map g = xs.map h :=
  forall₂_map_eq hfg (mapE_forall₂ hok)

/-! ## Spec-modelled normalization utilities

These live in `noko_client.schemas.utilities`, which is not among the sources
at hand; they are modelled from the specification. -/

/-- Modelled from the spec: coercion of a single ID element (string or
integer) to an integer, as applied elementwise by `list_to_list_of_integers`;
a non-numeric, non-coercible element fails validation. -/
def coerce_id : PyId → Except NokoError Int
  | .int n => .ok n
  | .str s =>
    match parseIntChars s.toList with
    | some n => .ok n
    | none => .error (.validation (String.append "invalid literal for int: " s))

/-- Modelled from the spec: `list_to_list_of_integers`
(`noko_client.schemas.utilities`, not under the sources at hand) coerces every
element of an ID list to an integer, in order, failing on any non-coercible
element. -/
def list_to_list_of_integers (ids : List PyId) : Except NokoError (List Int) :=
  mapE coerce_id ids

/-- The canonical comma-joined string of a list of integers. -/
def commaJoinInts (L : List Int) : String :=
  String.mk (joinComma (L.map printInt))

/-- Parse every comma-separated part as an integer. -/
def parseAllInts (parts : List (List Char)) : Option (List Int) :=
  match parts with
  | [] => some []
  | p :: ps =>
    match parseIntChars p, parseAllInts ps with
    | some n, some ns => some (n :: ns)
    | _, _ => none

/-- Modelled from the spec: normalization of an ID-list field for query
parameters.  Accepts a single ID (string or integer), a comma-separated
string of IDs, or a list of IDs, and produces the comma-joined string of the
coerced integers; anything else fails validation. -/
def normalize_id_list (v : PyValue) : Except NokoError String :=
  match v with
  | .int n => .ok (String.mk (printInt n))
  | .str s =>
    match parseAllInts (splitComma s.toList) with
    | some L => .ok (commaJoinInts L)
    | none => .error (.validation (String.append "invalid ID list: " s))
  | .pylist xs =>
    match list_to_list_of_integers xs with
    | .ok L => .ok (commaJoinInts L)
    | .error e => .error e
  | _ => .error (.validation "invalid type for ID list")

/-! ## Spec-modelled date and timestamp normalization -/

/-- Two decimal digit characters of `n` (modulo 100). -/
def pad2 (n : Nat) : List Char := [digitChar (n / 10 % 10), digitChar (n % 10)]

/-- Four decimal digit characters of `n` (modulo 10000). -/
def pad4 (n : Nat) : List Char :=
  [digitChar (n / 1000 % 10), digitChar (n / 100 % 10), digitChar (n / 10 % 10),
   digitChar (n % 10)]

/-- Character form of the ISO-8601 `YYYY-MM-DD` rendering of a date object. -/
def isoOfDateChars (d : PyDate) : List Char :=
  pad4 d.year ++ '-' :: (pad2 d.month ++ '-' :: pad2 d.day)

/-- The ISO-8601 `YYYY-MM-DD` string of a date object. -/
def isoOfDate (d : PyDate) : String := String.mk (isoOfDateChars d)

/-- Structural check for the required ISO-8601 `YYYY-MM-DD` date format. -/
def isIsoDateChars : List Char → Bool
  | [y1, y2, y3, y4, s1, m1, m2, s2, d1, d2] =>
    isDigitChar y1 && isDigitChar y2 && isDigitChar y3 && isDigitChar y4 &&
    (s1 == '-') && isDigitChar m1 && isDigitChar m2 && (s2 == '-') &&
    isDigitChar d1 && isDigitChar d2
  | _ => false

/-- A Python `str | datetime` date argument. -/
inductive DateInput where
  | str (s : String)
  | date (d : PyDate)
  deriving DecidableEq

/-- Modelled from the spec: `date_to_string` (`noko_client.schemas.utilities`,
not under the sources at hand) accepts a date object or an ISO-8601
`YYYY-MM-DD` string, normalizes to the string form and rejects strings not in
that format. -/
def date_to_string : DateInput → Except NokoError String
  | .str s => if isIsoDateChars s.toList then .ok s
              else .error (.validation (String.append "invalid date: " s))
  | .date d => .ok (isoOfDate d)

/-- Character form of the ISO-8601 `YYYY-MM-DDTHH:MM:SSZ` rendering of a
datetime object. -/
def isoOfDatetimeChars (dt : PyDatetime) : List Char :=
  pad4 dt.year ++ '-' :: (pad2 dt.month ++ '-' :: (pad2 dt.day ++
    'T' :: (pad2 dt.hour ++ ':' :: (pad2 dt.minute ++ ':' :: (pad2 dt.second ++ ['Z'])))))

/-- The ISO-8601 `YYYY-MM-DDTHH:MM:SSZ` string of a datetime object. -/
def isoOfDatetime (dt : PyDatetime) : String := String.mk (isoOfDatetimeChars dt)

/-- Structural check for the required ISO-8601 `YYYY-MM-DDTHH:MM:SSZ`
timestamp format. -/
def isIsoTimestampChars : List Char → Bool
  | [y1, y2, y3, y4, s1, m1, m2, s2, d1, d2, t, h1, h2, c1, i1, i2, c2, e1, e2, z] =>
    isDigitChar y1 && isDigitChar y2 && isDigitChar y3 && isDigitChar y4 &&
    (s1 == '-') && isDigitChar m1 && isDigitChar m2 && (s2 == '-') &&
    isDigitChar d1 && isDigitChar d2 && (t == 'T') &&
    isDigitChar h1 && isDigitChar h2 && (c1 == ':') &&
    isDigitChar i1 && isDigitChar i2 && (c2 == ':') &&
    isDigitChar e1 && isDigitChar e2 && (z == 'Z')
  | _ => false

/-- A Python `str | datetime` timestamp argument. -/
inductive TimestampInput where
  | str (s : String)
  | datetime (dt : PyDatetime)
  deriving DecidableEq

/-- Modelled from the spec: `timestamp_to_string`
(`noko_client.schemas.utilities`, not under the sources at hand) accepts a
datetime object or an ISO-8601 `YYYY-MM-DDTHH:MM:SSZ` string and normalizes to
the string form; when the value is absent it defaults to the current time at
call time, passed here explicitly as `now`. -/
def timestamp_to_string (now : PyDatetime) : Option TimestampInput → Except NokoError String
  | none => .ok (isoOfDatetime now)
  | some (.str s) => if isIsoTimestampChars s.toList then .ok s
                     else .error (.validation (String.append "invalid timestamp: " s))
  | some (.datetime dt) => .ok (isoOfDatetime dt)

theorem toList_mk (cs : List Char) : (String.mk cs).toList = cs := rfl

theorem isIsoDateChars_isoOfDate (d : PyDate) :
    isIsoDateChars (isoOfDate d).toList = true := by
  rw [isoOfDate, toList_mk, isoOfDateChars, pad4, pad2, pad2]
  simp only [List.cons_append, List.nil_append]
  rw [isIsoDateChars]
  simp [isDigitChar_digitChar_mod]

theorem isIsoTimestampChars_isoOfDatetime (dt : PyDatetime) :
    isIsoTimestampChars (isoOfDatetime dt).toList = true := by
  rw [isoOfDatetime, toList_mk, isoOfDatetimeChars, pad4, pad2, pad2, pad2, pad2, pad2]
  simp only [List.cons_append, List.nil_append]
  rw [isIsoTimestampChars]
  simp [isDigitChar_digitChar_mod]

/-! ## Spec-modelled boolean-like filter normalization -/

/-- Modelled from the spec: a boolean-like filter field accepts a native
boolean or the literal lowercase strings, and normalizes to the lowercase
string form. -/
def normalize_bool_like : PyValue → Except NokoError String
  | .bool true => .ok "true"
  | .bool false => .ok "false"
  | .str s => if s = "true" ∨ s = "false" then .ok s
              else .error (.validation (String.append "invalid boolean: " s))
  | _ => .error (.validation "invalid type for boolean field")

/-! ## Spec-modelled parameter schemas

The pydantic schemas live in `noko_client.schemas.*_parameters`, which are not
among the sources at hand; they are modelled from the specification: strict
schemas that validate and coerce each supplied field, fail on unknown fields,
and omit unset fields from the dump. -/

/-- Attach the field name to a successfully normalized value. -/
def withKey (k : String) (r : Except NokoError α) : Except NokoError (String × α) :=
  match r with
  | .ok v => .ok (k, v)
  | .error e => .error e

theorem withKey_ok {k : String} {r : Except NokoError α} {p : String × α}
    (h : withKey k r = .ok p) : p.1 = k := by
  rw [withKey.eq_def] at h
  cases r with
  | ok v => cases h; rfl
  | error e => exact absurd h (by simp)

/-- A field that must be a plain string. -/
def normalize_str_value : PyValue → Except NokoError String
  | .str s => .ok s
  | _ => .error (.validation "invalid type for string field")

/-- A date-typed filter field: a date object or an ISO `YYYY-MM-DD` string. -/
def normalize_date_value : PyValue → Except NokoError String
  | .str s => date_to_string (.str s)
  | .date d => date_to_string (.date d)
  | _ => .error (.validation "invalid type for date field")

/-- A timestamp-typed filter field: a datetime object or an ISO
`YYYY-MM-DDTHH:MM:SSZ` string. -/
def normalize_timestamp_value : PyValue → Except NokoError String
  | .str s => if isIsoTimestampChars s.toList then .ok s
              else .error (.validation (String.append "invalid timestamp: " s))
  | .datetime dt => .ok (isoOfDatetime dt)
  | _ => .error (.validation "invalid type for timestamp field")

/-- The keyword fields accepted by the entry-listing schema. -/
def entriesKeys : List String :=
  ["user_ids", "description", "project_ids", "tag_ids", "tag_filter_type",
   "from_", "to", "invoiced", "updated_from", "updated_to", "billable",
   "approved_at_from", "approved_at_to"]

/-- Modelled from the spec: normalization of one keyword field of
`GetNokoEntriesParameters`; unknown fields fail validation. -/
def entriesFieldValue (k : String) (v : PyValue) : Except NokoError String :=
  if k = "user_ids" then normalize_id_list v
  else if k = "description" then normalize_str_value v
  else if k = "project_ids" then normalize_id_list v
  else if k = "tag_ids" then normalize_id_list v
  else if k = "tag_filter_type" then normalize_str_value v
  else if k = "from_" then normalize_date_value v
  else if k = "to" then normalize_date_value v
  else if k = "invoiced" then normalize_bool_like v
  else if k = "updated_from" then normalize_timestamp_value v
  else if k = "updated_to" then normalize_timestamp_value v
  else if k = "billable" then normalize_bool_like v
  else if k = "approved_at_from" then normalize_date_value v
  else if k = "approved_at_to" then normalize_date_value v
  else .error (.validation (String.append "unknown field: " k))

/-- Modelled from the spec: the strict `GetNokoEntriesParameters` schema
(`noko_client.schemas.entries_parameters`, not under the sources at hand).
Validates and coerces every supplied keyword field; the dump contains exactly
the supplied fields. -/
def GetNokoEntriesParameters (kwargs : List (String × PyValue)) :
    Except NokoError (List (String × String)) :=
  mapE (fun kv => withKey kv.1 (entriesFieldValue kv.1 kv.2)) kwargs

/-- Modelled from the spec: normalization of one keyword field of
`GetNokoTagsParameters`; unknown fields fail validation. -/
def tagsFieldValue (k : String) (v : PyValue) : Except NokoError String :=
  if k = "name" then normalize_str_value v
  else if k = "billable" then normalize_bool_like v
  else .error (.validation (String.append "unknown field: " k))

/-- Modelled from the spec: the strict `GetNokoTagsParameters` schema
(`noko_client.schemas.tags_parameters`, not under the sources at hand). -/
def GetNokoTagsParameters (kwargs : List (String × PyValue)) :
    Except NokoError (List (String × String)) :=
  mapE (fun kv => withKey kv.1 (tagsFieldValue kv.1 kv.2)) kwargs

/-- An ID-typed body field (`str | int`), transmitted as supplied. -/
def normalize_scalar_id_value : PyValue → Except NokoError Json
  | .int n => .ok (.num n)
  | .str s => .ok (.str s)
  | _ => .error (.validation "invalid type for ID field")

/-- Modelled from the spec: normalization of one keyword field of the entry
creation/edit body schemas; unknown fields fail validation. -/
def entryBodyValue (k : String) (v : PyValue) : Except NokoError Json
  := if k = "date" then
       match normalize_date_value v with
       | .ok s => .ok (.str s)
       | .error e => .error e
     else if k = "user_id" then normalize_scalar_id_value v
     else if k = "minutes" then
       match v with
       | .int n => .ok (.num n)
       | _ => .error (.validation "invalid type for minutes")
     else if k = "description" then
       match normalize_str_value v with
       | .ok s => .ok (.str s)
       | .error e => .error e
     else if k = "project_id" then normalize_scalar_id_value v
     else if k = "project_name" then
       match normalize_str_value v with
       | .ok s => .ok (.str s)
       | .error e => .error e
     else if k = "source_url" then
       match normalize_str_value v with
       | .ok s => .ok (.str s)
       | .error e => .error e
     else .error (.validation (String.append "unknown field: " k))

/-- Modelled from the spec: the strict `CreateNokoEntryParameters` schema
(`noko_client.schemas.entries_parameters`, not under the sources at hand);
requires a date, a user ID and a minute count. -/
def CreateNokoEntryParameters (kwargs : List (String × PyValue)) :
    Except NokoError (List (String × Json)) :=
  match mapE (fun kv => withKey kv.1 (entryBodyValue kv.1 kv.2)) kwargs with
  | .error e => .error e
  | .ok fields =>
    if (kwargs.map Prod.fst).contains "date" &&
       (kwargs.map Prod.fst).contains "user_id" &&
       (kwargs.map Prod.fst).contains "minutes"
    then .ok fields
    else .error (.validation "missing required field")

/-- Modelled from the spec: the strict `EditNokoEntryParameters` schema
(`noko_client.schemas.entries_parameters`, not under the sources at hand); all
fields optional, unset fields are not included in the dump. -/
def EditNokoEntryParameters (kwargs : List (String × PyValue)) :
    Except NokoError (List (String × Json)) :=
  mapE (fun kv => withKey kv.1 (entryBodyValue kv.1 kv.2)) kwargs

/-! ## Requests and the transport collaborator -/

/-- HTTP verb of a request. -/
inductive HttpMethod where
  | GET
  | POST
  | PUT
  | DELETE
  deriving DecidableEq

/-- One HTTP request handed to the transport collaborator (`fetch_json`). -/
structure Request where
  uri : String
  httpMethod : HttpMethod
  queryParams : Option (List (String × String))
  postArgs : Option (List (String × Json))

/-- The black-box transport collaborator: performs the call and returns
parsed JSON. -/
def Transport := Request → Json

/-- Outcome of one client method: the single request it issued and the value
it returns to the caller (`Json.null` models Python `None`). -/
structure CallResult where
  request : Request
  retVal : Json

/-- The `entry_ids` argument of the bulk/singular entry operations:
a scalar `int | str` or a Python list. -/
inductive EntryIds where
  | scalar (v : PyId)
  | list (xs : List PyId)

/-- Keys present in the request body of a call. -/
def bodyKeys (r : CallResult) : List String :=
  (r.request.postArgs.getD []).map Prod.fst

/-- Look a field up in the request body of a call. -/
def bodyLookup (r : CallResult) (k : String) : Option Json :=
  match r.request.postArgs with
  | some fields => fields.lookup k
  | none => none

/-! ## The client methods (embedded from `noko_client/client.py`) -/

/-- `NokoClient.list_entries`: normalize the filters, GET `entries` with them
as query parameters, return the decoded response. -/
def list_entries (t : Transport) (kwargs : List (String × PyValue)) :
    Except NokoError CallResult :=
  match GetNokoEntriesParameters kwargs with
  | .error e => .error e
  | .ok params =>
    let req : Request := ⟨"entries", .GET, some params, none⟩
    .ok ⟨req, t req⟩

/-- `NokoClient.create_entry`: normalize the creation body, POST `entries`,
return the created record. -/
def create_entry (t : Transport) (kwargs : List (String × PyValue)) :
    Except NokoError CallResult :=
  match CreateNokoEntryParameters kwargs with
  | .error e => .error e
  | .ok data =>
    let req : Request := ⟨"entries", .POST, none, some data⟩
    .ok ⟨req, t req⟩

/-- `NokoClient.edit_entry`: normalize the partial-update body, PUT
`entries/{entry_id}`, return the updated record. -/
def edit_entry (t : Transport) (entry_id : PyId) (kwargs : List (String × PyValue)) :
    Except NokoError CallResult :=
  match EditNokoEntryParameters kwargs with
  | .error e => .error e
  | .ok data =>
    let req : Request := ⟨String.append "entries/" (pyIdToString entry_id), .PUT, none, some data⟩
    .ok ⟨req, t req⟩

/-- `NokoClient.mark_as_invoiced`: normalize the date, then PUT either the
singular path `entries/{entry_ids}/mark_as_invoiced` or, for a list argument,
the bulk path `entries/mark_as_invoiced` with the coerced ID array added to
the body.  Returns `None`. -/
def mark_as_invoiced (t : Transport) (entry_ids : EntryIds) (date : DateInput) :
    Except NokoError CallResult :=
  match date_to_string date with
  | .error e => .error e
  | .ok dateStr =>
    match entry_ids with
    | .scalar v =>
      let req : Request :=
        ⟨String.append "entries/" (String.append (pyIdToString v) "/mark_as_invoiced"),
         .PUT, none, some [("date", .str dateStr)]⟩
      let _resp := t req
      .ok ⟨req, .null⟩
    | .list xs =>
      match list_to_list_of_integers xs with
      | .error e => .error e
      | .ok ids =>
        let req : Request :=
          ⟨"entries/mark_as_invoiced", .PUT, none,
           some [("date", .str dateStr), ("entry_ids", .arr (ids.map Json.num))]⟩
        let _resp := t req
        .ok ⟨req, .null⟩

/-- `NokoClient.mark_as_approved`: normalize the approval timestamp (default:
the current time), then PUT either `entries/{entry_ids}/approved` or, for a
list argument, the bulk path `entries/approved` with the coerced ID array
added to the body.  Returns `None`. -/
def mark_as_approved (t : Transport) (entry_ids : EntryIds)
    (approved_at : Option TimestampInput) (now : PyDatetime) :
    Except NokoError CallResult :=
  match timestamp_to_string now approved_at with
  | .error e => .error e
  | .ok ts =>
    match entry_ids with
    | .scalar v =>
      let req : Request :=
        ⟨String.append "entries/" (String.append (pyIdToString v) "/approved"),
         .PUT, none, some [("approved_at", .str ts)]⟩
      let _resp := t req
      .ok ⟨req, .null⟩
    | .list xs =>
      match list_to_list_of_integers xs with
      | .error e => .error e
      | .ok ids =>
        let req : Request :=
          ⟨"entries/approved", .PUT, none,
           some [("approved_at", .str ts), ("entry_ids", .arr (ids.map Json.num))]⟩
        let _resp := t req
        .ok ⟨req, .null⟩

/-- `NokoClient.mark_as_unapproved`: PUT either
`entries/{entry_ids}/unapproved` with an empty body or, for a list argument,
the bulk path `entries/unapproved` with the coerced ID array as the body.
Returns `None`. -/
def mark_as_unapproved (t : Transport) (entry_ids : EntryIds) :
    Except NokoError CallResult :=
  match entry_ids with
  | .scalar v =>
    let req : Request :=
      ⟨String.append "entries/" (String.append (pyIdToString v) "/unapproved"),
       .PUT, none, some []⟩
    let _resp := t req
    .ok ⟨req, .null⟩
  | .list xs =>
    match list_to_list_of_integers xs with
    | .error e => .error e
    | .ok ids =>
      let req : Request :=
        ⟨"entries/unapproved", .PUT, none, some [("entry_ids", .arr (ids.map Json.num))]⟩
      let _resp := t req
      .ok ⟨req, .null⟩

/-- `NokoClient.delete_entry`: DELETE `entries/{entry_id}`, return `None`. -/
def delete_entry (t : Transport) (entry_id : PyId) : CallResult :=
  let req : Request := ⟨String.append "entries/" (pyIdToString entry_id), .DELETE, none, none⟩
  let _resp := t req
  ⟨req, .null⟩

/-- `NokoClient.list_tags`: normalize the filters, GET `tags` with them as
query parameters, return the decoded response. -/
def list_tags (t : Transport) (kwargs : List (String × PyValue)) :
    Except NokoError CallResult :=
  match GetNokoTagsParameters kwargs with
  | .error e => .error e
  | .ok params =>
    let req : Request := ⟨"tags", .GET, some params, none⟩
    .ok ⟨req, t req⟩

/-- `NokoClient.get_all_entries_for_tag`: normalize the entry filters, GET
`tags/{tag_id}/entries` with them as query parameters. -/
def get_all_entries_for_tag (t : Transport) (tag_id : PyId)
    (kwargs : List (String × PyValue)) : Except NokoError CallResult :=
  match GetNokoEntriesParameters kwargs with
  | .error e => .error e
  | .ok params =>
    let req : Request :=
      ⟨String.append "tags/" (String.append (pyIdToString tag_id) "/entries"),
       .GET, some params, none⟩
    .ok ⟨req, t req⟩

/-- `NokoClient.merge_tag_into_this_tag`: PUT `tags/{tag_id}/merge` with the
tag to merge carried under the `tag_id` body field, exactly as supplied.
Returns `None`. -/
def merge_tag_into_this_tag (t : Transport) (tag_id : PyId) (tag_to_merge_id : PyId) :
    CallResult :=
  let req : Request :=
    ⟨String.append "tags/" (String.append (pyIdToString tag_id) "/merge"),
     .PUT, none, some [("tag_id", pyIdToJson tag_to_merge_id)]⟩
  let _resp := t req
  ⟨req, .null⟩

/-- `NokoClient.delete_single_tag`: DELETE `tags/{tag_id}`, return `None`. -/
def delete_single_tag (t : Transport) (tag_id : PyId) : CallResult :=
  let req : Request := ⟨String.append "tags/" (pyIdToString tag_id), .DELETE, none, none⟩
  let _resp := t req
  ⟨req, .null⟩

/-- `NokoClient.delete_tags`: coerce the tag IDs to integers, DELETE
`tags/delete` with the array under the `tag_ids` body field.  Returns
`None`. -/
def delete_tags (t : Transport) (tag_ids : List PyId) : Except NokoError CallResult :=
  match list_to_list_of_integers tag_ids with
  | .error e => .error e
  | .ok ids =>
    let req : Request :=
      ⟨"tags/delete", .DELETE, none, some [("tag_ids", .arr (ids.map Json.num))]⟩
    let _resp := t req
    .ok ⟨req, .null⟩

/-- A concrete transport used to instantiate witnesses. -/
def nullTransport : Transport := fun _ => Json.null

/-! ## Helper lemmas about the schemas -/

theorem entriesFieldValue_unknown {k : String} (h : ¬ k ∈ entriesKeys) (v : PyValue) :
    entriesFieldValue k v = .error (.validation (String.append "unknown field: " k)) := by
  simp only [entriesKeys, List.mem_cons, List.not_mem_nil, or_false, not_or] at h
  obtain ⟨h1, h2, h3, h4, h5, h6, h7, h8, h9, h10, h11, h12, h13⟩ := h
  simp [entriesFieldValue, h1, h2, h3, h4, h5, h6, h7, h8, h9, h10, h11, h12, h13]

theorem entries_params_ok_keys {kwargs : List (String × PyValue)}
    {ps : List (String × String)} (h : GetNokoEntriesParameters kwargs = .ok ps) :
    ∀ kv ∈ kwargs, kv.1 ∈ entriesKeys := by
  intro kv hkv
  obtain ⟨p, hp⟩ := mapE_ok_of_mem h kv hkv
  by_contra hnot
  rw [entriesFieldValue_unknown hnot] at hp
  exact Except.noConfusion hp

/-! ## Claim theorems -/

/-- C1: `mark_as_invoiced` with a scalar `entry_ids` issues a PUT to the
singular path `entries/{id}/mark_as_invoiced` with body
`{"date": <normalized date>}`; with a list it issues a PUT to the bulk path
`entries/mark_as_invoiced` with body
`{"date": <normalized date>, "entry_ids": <elements coerced to integers,
order preserved>}`. -/
theorem mark_as_invoiced_routes_scalar_and_bulk : ∀ (t : Transport),
    (∀ (v : PyId) (d : DateInput) (s : String), date_to_string d = .ok s →
      mark_as_invoiced t (.scalar v) d =
        .ok ⟨⟨String.append "entries/" (String.append (pyIdToString v) "/mark_as_invoiced"),
              .PUT, none, some [("date", .str s)]⟩, .null⟩)
  ∧ (∀ (xs : List PyId) (d : DateInput) (s : String) (L : List Int),
      date_to_string d = .ok s → list_to_list_of_integers xs = .ok L →
      mark_as_invoiced t (.list xs) d =
        .ok ⟨⟨"entries/mark_as_invoiced", .PUT, none,
              some [("date", .str s), ("entry_ids", .arr (L.map Json.num))]⟩, .null⟩) := by
  intro t
  constructor
  · intro v d s h
    unfold mark_as_invoiced
    rw [h]
  · intro xs d s L h hL
    unfold mark_as_invoiced
    simp only [h, hL]

/-- Witness for C1 at `entry_ids = 5` and `entry_ids = [5, 6, "7"]` with
`date = "2024-01-01"`. -/
theorem mark_as_invoiced_routes_scalar_and_bulk_witness :
    mark_as_invoiced nullTransport (.scalar (.int 5)) (.str "2024-01-01") =
      .ok ⟨⟨"entries/5/mark_as_invoiced", .PUT, none, some [("date", .str "2024-01-01")]⟩, .null⟩
  ∧ mark_as_invoiced nullTransport (.list [.int 5, .int 6, .str "7"]) (.str "2024-01-01") =
      .ok ⟨⟨"entries/mark_as_invoiced", .PUT, none,
            some [("date", .str "2024-01-01"),
                  ("entry_ids", .arr [.num 5, .num 6, .num 7])]⟩, .null⟩ := by
  constructor
  · exact (mark_as_invoiced_routes_scalar_and_bulk nullTransport).1
      (.int 5) (.str "2024-01-01") "2024-01-01" (by rfl)
  · exact (mark_as_invoiced_routes_scalar_and_bulk nullTransport).2
      [.int 5, .int 6, .str "7"] (.str "2024-01-01") "2024-01-01" [5, 6, 7] (by rfl) (by rfl)

/-- C2: whenever the parameter normalizer fails on the supplied keyword
arguments (in particular on an unknown field or on a non-coercible element in
a tag-ID list), the normalizing operation raises that validation error and
issues no request to the transport collaborator. -/
theorem validation_failure_blocks_transport : ∀ (t : Transport),
    (∀ kwargs e, GetNokoEntriesParameters kwargs = .error e →
      list_entries t kwargs = .error e)
  ∧ (∀ kwargs e, GetNokoTagsParameters kwargs = .error e →
      list_tags t kwargs = .error e)
  ∧ (∀ kwargs e, CreateNokoEntryParameters kwargs = .error e →
      create_entry t kwargs = .error e)
  ∧ (∀ eid kwargs e, EditNokoEntryParameters kwargs = .error e →
      edit_entry t eid kwargs = .error e)
  ∧ (∀ tid kwargs e, GetNokoEntriesParameters kwargs = .error e →
      get_all_entries_for_tag t tid kwargs = .error e)
  ∧ (∀ kwargs kv, kv ∈ kwargs → ¬ kv.1 ∈ entriesKeys →
      ∃ e, list_entries t kwargs = .error e)
  ∧ (∀ kwargs xs x, ("tag_ids", PyValue.pylist xs) ∈ kwargs → x ∈ xs →
      (∀ n, ¬ coerce_id x = .ok n) → ∃ e, list_entries t kwargs = .error e) := by
  intro t
  have herr : ∀ kwargs e, GetNokoEntriesParameters kwargs = .error e →
      list_entries t kwargs = .error e := by
    intro kwargs e h
    unfold list_entries
    rw [h]
  refine ⟨herr, ?_, ?_, ?_, ?_, ?_, ?_⟩
  · intro kwargs e h
    unfold list_tags
    rw [h]
  · intro kwargs e h
    unfold create_entry
    rw [h]
  · intro eid kwargs e h
    unfold edit_entry
    rw [h]
  · intro tid kwargs e h
    unfold get_all_entries_for_tag
    rw [h]
  · intro kwargs kv hkv hnot
    cases h : GetNokoEntriesParameters kwargs with
    | error e => exact ⟨e, herr kwargs e h⟩
    | ok ps => exact absurd (entries_params_ok_keys h kv hkv) hnot
  · intro kwargs xs x hmem hx hbad
    obtain ⟨e, he⟩ := mapE_error_of_mem hx hbad
    have hfe : ∃ e2, GetNokoEntriesParameters kwargs = .error e2 := by
      apply mapE_error_of_mem hmem
      intro y hy
      have hred : withKey "tag_ids" (entriesFieldValue "tag_ids" (PyValue.pylist xs)) =
          withKey "tag_ids"
            (match list_to_list_of_integers xs with
             | .ok L => .ok (commaJoinInts L)
             | .error e => .error e) := rfl
      have he2 : list_to_list_of_integers xs = .error e := he
      rw [hred, he2] at hy
      exact Except.noConfusion hy
    obtain ⟨e2, he2⟩ := hfe
    exact ⟨e2, herr kwargs e2 he2⟩

/-- Witness for C2: an unknown keyword field and a non-coercible tag-ID list
element each abort `list_entries` with a validation error. -/
theorem validation_failure_blocks_transport_witness :
    list_entries nullTransport [("bogus", PyValue.str "x")] =
      .error (.validation "unknown field: bogus")
  ∧ ∃ e, list_entries nullTransport [("tag_ids", PyValue.pylist [PyId.str "abc"])] = .error e :=
  ⟨by rfl,
   (validation_failure_blocks_transport nullTransport).2.2.2.2.2.2
     [("tag_ids", PyValue.pylist [PyId.str "abc"])] [PyId.str "abc"] (PyId.str "abc")
     (by simp) (by simp) (by intro n h; exact Except.noConfusion h)⟩

theorem parseAllInts_map_printInt (L : List Int) :
    parseAllInts (L.map printInt) = some L := by
  induction L with
  | nil => rfl
  | cons n ns ih => simp [parseAllInts, parseIntChars_printInt, ih]

/-- C3: for every list-of-ID input — a list of mixed string/integer elements,
a comma-separated string, or a single scalar ID — normalization produces the
equivalent canonical comma-joined-integer string (for query parameters) or
integer array (for JSON bodies), preserving the order of the input
elements. -/
theorem id_list_normalization_canonical :
    ∀ (xs : List PyId) (L : List Int), list_to_list_of_integers xs = .ok L →
      List.Forall₂ (fun x n => coerce_id x = .ok n) xs L
    ∧ normalize_id_list (.pylist xs) = .ok (commaJoinInts L)
    ∧ (∀ n : Int, normalize_id_list (.int n) = .ok (commaJoinInts [n]))
    ∧ (L ≠ [] → normalize_id_list (.str (commaJoinInts L)) = .ok (commaJoinInts L)) := by
  intro xs L h
  refine ⟨mapE_forall₂ h, ?_, ?_, ?_⟩
  · have hred : normalize_id_list (.pylist xs) =
        match list_to_list_of_integers xs with
        | .ok M => .ok (commaJoinInts M)
        | .error e => .error e := rfl
    rw [hred, h]
  · intro n
    rfl
  · intro hne
    have hred : normalize_id_list (.str (commaJoinInts L)) =
        match parseAllInts (splitComma (joinComma (L.map printInt))) with
        | some M => .ok (commaJoinInts M)
        | none => .error (.validation (String.append "invalid ID list: " (commaJoinInts L))) :=
      rfl
    rw [hred]
    rw [splitComma_joinComma (L.map printInt) (by simpa using hne)
      (fun p hp => by
        obtain ⟨n, _, hpn⟩ := List.mem_map.mp hp
        rw [← hpn]
        exact printInt_comma_free n)]
    rw [parseAllInts_map_printInt]

/-- Witness for C3 at the list `[5, "6"]` and the comma string `"5,6"`. -/
theorem id_list_normalization_canonical_witness :
    normalize_id_list (.pylist [PyId.int 5, PyId.str "6"]) = .ok "5,6"
  ∧ normalize_id_list (.str "5,6") = .ok "5,6" := by
  have h := id_list_normalization_canonical [PyId.int 5, PyId.str "6"] [5, 6] (by rfl)
  constructor
  · rw [h.2.1]
    rfl
  · exact h.2.2.2 (by decide)

/-- C4: date/timestamp normalization is a no-op on every string already in
the required ISO format, normalizing a native date/datetime object yields
exactly the corresponding ISO string (itself in the accepted format), and
normalizing a malformed string fails validation. -/
theorem date_normalization_roundtrip :
    (∀ s : String, isIsoDateChars s.toList = true → date_to_string (.str s) = .ok s)
  ∧ (∀ d : PyDate, date_to_string (.date d) = .ok (isoOfDate d) ∧
      isIsoDateChars (isoOfDate d).toList = true)
  ∧ (∀ s : String, isIsoDateChars s.toList = false →
      date_to_string (.str s) = .error (.validation (String.append "invalid date: " s)))
  ∧ (∀ (now : PyDatetime) (s : String), isIsoTimestampChars s.toList = true →
      timestamp_to_string now (some (.str s)) = .ok s)
  ∧ (∀ now dt : PyDatetime,
      timestamp_to_string now (some (.datetime dt)) = .ok (isoOfDatetime dt) ∧
      isIsoTimestampChars (isoOfDatetime dt).toList = true)
  ∧ (∀ (now : PyDatetime) (s : String), isIsoTimestampChars s.toList = false →
      timestamp_to_string now (some (.str s)) =
        .error (.validation (String.append "invalid timestamp: " s))) := by
  refine ⟨?_, ?_, ?_, ?_, ?_, ?_⟩
  · intro s h
    simp [date_to_string, show isIsoDateChars s.data = true from h]
  · intro d
    exact ⟨rfl, isIsoDateChars_isoOfDate d⟩
  · intro s h
    simp [date_to_string, show isIsoDateChars s.data = false from h]
  · intro now s h
    simp [timestamp_to_string, show isIsoTimestampChars s.data = true from h]
  · intro now dt
    exact ⟨rfl, isIsoTimestampChars_isoOfDatetime dt⟩
  · intro now s h
    simp [timestamp_to_string, show isIsoTimestampChars s.data = false from h]

/-- Witness for C4 at `"2024-01-01"`, `date(2024, 1, 1)`, the malformed
`"01/01/2024"` and the timestamp `"2024-01-01T12:00:00Z"`. -/
theorem date_normalization_roundtrip_witness :
    date_to_string (.str "2024-01-01") = .ok "2024-01-01"
  ∧ date_to_string (.date ⟨2024, 1, 1⟩) = .ok "2024-01-01"
  ∧ date_to_string (.str "01/01/2024") = .error (.validation "invalid date: 01/01/2024")
  ∧ timestamp_to_string ⟨2024, 1, 1, 0, 0, 0⟩ (some (.str "2024-01-01T12:00:00Z")) =
      .ok "2024-01-01T12:00:00Z" := by
  refine ⟨date_normalization_roundtrip.1 "2024-01-01" (by decide), ?_,
    date_normalization_roundtrip.2.2.1 "01/01/2024" (by decide),
    date_normalization_roundtrip.2.2.2.1 ⟨2024, 1, 1, 0, 0, 0⟩ "2024-01-01T12:00:00Z"
      (by decide)⟩
  rw [(date_normalization_roundtrip.2.1 ⟨2024, 1, 1⟩).1]
  rfl

/-- C5: in `edit_entry` every parameter the caller leaves unset is absent
from the outgoing PUT body — the body keys are exactly the supplied keyword
keys — so unset fields preserve the existing remote values. -/
theorem edit_entry_body_only_supplied_fields :
    ∀ (t : Transport) (eid : PyId) (kwargs : List (String × PyValue)) (r : CallResult),
      edit_entry t eid kwargs = .ok r →
        r.request.httpMethod = .PUT
      ∧ r.request.uri = String.append "entries/" (pyIdToString eid)
      ∧ bodyKeys r = kwargs.map Prod.fst := by
  intro t eid kwargs r h
  unfold edit_entry at h
  cases hd : EditNokoEntryParameters kwargs with
  | error e => rw [hd] at h; exact Except.noConfusion h
  | ok data =>
    rw [hd] at h
    injection h with h'
    subst h'
    refine ⟨rfl, rfl, ?_⟩
    show data.map Prod.fst = kwargs.map Prod.fst
    exact mapE_map_eq (fun kv p hp => withKey_ok hp) hd

/-- Witness for C5: editing entry 1 supplying only `minutes` produces a body
with exactly the `minutes` key. -/
theorem edit_entry_body_only_supplied_fields_witness :
    bodyKeys ⟨⟨"entries/1", .PUT, none, some [("minutes", Json.num 30)]⟩, Json.null⟩ =
      ["minutes"] :=
  (edit_entry_body_only_supplied_fields nullTransport (.int 1) [("minutes", PyValue.int 30)]
    ⟨⟨"entries/1", .PUT, none, some [("minutes", Json.num 30)]⟩, Json.null⟩ (by rfl)).2.2

/-- C6: boolean-like filter fields normalize `True` to `"true"` and `False`
to `"false"`, an unset field is omitted from the outgoing parameters (the
query keys are exactly the supplied keys), and
`list_tags(name="urgent", billable=True)` issues a GET to `tags` with query
exactly `{"name": "urgent", "billable": "true"}`. -/
theorem bool_filter_normalization : ∀ (t : Transport),
    normalize_bool_like (.bool true) = .ok "true"
  ∧ normalize_bool_like (.bool false) = .ok "false"
  ∧ (∀ kwargs r, list_tags t kwargs = .ok r →
      ∃ qs, r.request.queryParams = some qs ∧ qs.map Prod.fst = kwargs.map Prod.fst)
  ∧ list_tags t [("name", .str "urgent"), ("billable", .bool true)] =
      .ok ⟨⟨"tags", .GET, some [("name", "urgent"), ("billable", "true")], none⟩,
           t ⟨"tags", .GET, some [("name", "urgent"), ("billable", "true")], none⟩⟩ := by
  intro t
  refine ⟨rfl, rfl, ?_, rfl⟩
  intro kwargs r h
  unfold list_tags at h
  cases hd : GetNokoTagsParameters kwargs with
  | error e => rw [hd] at h; exact Except.noConfusion h
  | ok params =>
    rw [hd] at h
    injection h with h'
    subst h'
    exact ⟨params, rfl, mapE_map_eq (fun kv p hp => withKey_ok hp) hd⟩

/-- Witness for C6: the query of the `list_tags(name="urgent", billable=True)`
call carries exactly the supplied keys. -/
theorem bool_filter_normalization_witness :
    ∃ qs, (⟨⟨"tags", .GET, some [("name", "urgent"), ("billable", "true")], none⟩,
            Json.null⟩ : CallResult).request.queryParams = some qs ∧
      qs.map Prod.fst = ["name", "billable"] :=
  (bool_filter_normalization nullTransport).2.2.1
    [("name", PyValue.str "urgent"), ("billable", PyValue.bool true)]
    ⟨⟨"tags", .GET, some [("name", "urgent"), ("billable", "true")], none⟩, Json.null⟩
    (by rfl)

theorem mark_as_approved_body_ts {t : Transport} {now : PyDatetime}
    {a : Option TimestampInput} {ts : String}
    (hts : timestamp_to_string now a = .ok ts) :
    ∀ e r, mark_as_approved t e a now = .ok r →
      bodyLookup r "approved_at" = some (.str ts) := by
  intro e r h
  cases e with
  | scalar v =>
    unfold mark_as_approved at h
    simp only [hts] at h
    injection h with h'
    subst h'
    rfl
  | list xs =>
    unfold mark_as_approved at h
    cases hl : list_to_list_of_integers xs with
    | error e2 =>
      simp only [hts, hl] at h
      exact Except.noConfusion h
    | ok ids =>
      simp only [hts, hl] at h
      injection h with h'
      subst h'
      rfl

/-- C7: in `mark_as_approved`, an absent `approved_at` defaults to the
current time at call time normalized to the ISO-8601 string; a supplied
datetime or accepted ISO string is carried in its normalized string form; and
the `approved_at` field is always present in the outgoing body. -/
theorem mark_as_approved_timestamp_default : ∀ (t : Transport) (now : PyDatetime),
    (∀ e r, mark_as_approved t e none now = .ok r →
      bodyLookup r "approved_at" = some (.str (isoOfDatetime now)))
  ∧ (∀ e dt r, mark_as_approved t e (some (.datetime dt)) now = .ok r →
      bodyLookup r "approved_at" = some (.str (isoOfDatetime dt)))
  ∧ (∀ e s r, isIsoTimestampChars s.toList = true →
      mark_as_approved t e (some (.str s)) now = .ok r →
      bodyLookup r "approved_at" = some (.str s))
  ∧ (∀ e a r, mark_as_approved t e a now = .ok r →
      ∃ v, bodyLookup r "approved_at" = some v) := by
  intro t now
  refine ⟨?_, ?_, ?_, ?_⟩
  · exact fun e r h => @mark_as_approved_body_ts t now none (isoOfDatetime now) rfl e r h
  · exact fun e dt r h =>
      @mark_as_approved_body_ts t now (some (.datetime dt)) (isoOfDatetime dt) rfl e r h
  · intro e s r hs h
    refine mark_as_approved_body_ts ?_ e r h
    simp [timestamp_to_string, show isIsoTimestampChars s.data = true from hs]
  · intro e a r h
    cases hts : timestamp_to_string now a with
    | error e2 =>
      unfold mark_as_approved at h
      rw [hts] at h
      exact Except.noConfusion h
    | ok ts => exact ⟨.str ts, mark_as_approved_body_ts hts e r h⟩

/-- Witness for C7: approving entry 1 with no `approved_at` at current time
`2024-01-02T03:04:05Z` sends exactly that timestamp. -/
theorem mark_as_approved_timestamp_default_witness :
    bodyLookup ⟨⟨"entries/1/approved", .PUT, none,
        some [("approved_at", .str "2024-01-02T03:04:05Z")]⟩, Json.null⟩ "approved_at" =
      some (.str "2024-01-02T03:04:05Z") :=
  (mark_as_approved_timestamp_default nullTransport ⟨2024, 1, 2, 3, 4, 5⟩).1
    (.scalar (.int 1))
    ⟨⟨"entries/1/approved", .PUT, none,
      some [("approved_at", .str "2024-01-02T03:04:05Z")]⟩, Json.null⟩
    (by rfl)

/-- C8: in `mark_as_invoiced`, `mark_as_approved` and `mark_as_unapproved`
the bulk endpoint is selected exactly when `entry_ids` is a list; every
non-list argument — including a comma-separated ID string — is interpolated
verbatim into the singular per-record path, and no `entry_ids` field is
placed in the body. -/
theorem bulk_iff_list_routing : ∀ (t : Transport),
    (∀ v d r, mark_as_invoiced t (.scalar v) d = .ok r →
      r.request.uri =
        String.append "entries/" (String.append (pyIdToString v) "/mark_as_invoiced")
      ∧ ¬ "entry_ids" ∈ bodyKeys r)
  ∧ (∀ xs d r, mark_as_invoiced t (.list xs) d = .ok r →
      r.request.uri = "entries/mark_as_invoiced" ∧ "entry_ids" ∈ bodyKeys r)
  ∧ (∀ v a now r, mark_as_approved t (.scalar v) a now = .ok r →
      r.request.uri = String.append "entries/" (String.append (pyIdToString v) "/approved")
      ∧ ¬ "entry_ids" ∈ bodyKeys r)
  ∧ (∀ xs a now r, mark_as_approved t (.list xs) a now = .ok r →
      r.request.uri = "entries/approved" ∧ "entry_ids" ∈ bodyKeys r)
  ∧ (∀ v r, mark_as_unapproved t (.scalar v) = .ok r →
      r.request.uri = String.append "entries/" (String.append (pyIdToString v) "/unapproved")
      ∧ ¬ "entry_ids" ∈ bodyKeys r)
  ∧ (∀ xs r, mark_as_unapproved t (.list xs) = .ok r →
      r.request.uri = "entries/unapproved" ∧ "entry_ids" ∈ bodyKeys r)
  ∧ (∀ s, pyIdToString (.str s) = s) := by
  intro t
  refine ⟨?_, ?_, ?_, ?_, ?_, ?_, fun s => rfl⟩
  · intro v d r h
    unfold mark_as_invoiced at h
    cases hd : date_to_string d with
    | error e => simp only [hd] at h; exact Except.noConfusion h
    | ok s =>
      simp only [hd] at h
      injection h with h'
      subst h'
      exact ⟨rfl, by simp [bodyKeys]⟩
  · intro xs d r h
    unfold mark_as_invoiced at h
    cases hd : date_to_string d with
    | error e => simp only [hd] at h; exact Except.noConfusion h
    | ok s =>
      cases hl : list_to_list_of_integers xs with
      | error e => simp only [hd, hl] at h; exact Except.noConfusion h
      | ok ids =>
        simp only [hd, hl] at h
        injection h with h'
        subst h'
        exact ⟨rfl, by simp [bodyKeys]⟩
  · intro v a now r h
    unfold mark_as_approved at h
    cases hd : timestamp_to_string now a with
    | error e => simp only [hd] at h; exact Except.noConfusion h
    | ok s =>
      simp only [hd] at h
      injection h with h'
      subst h'
      exact ⟨rfl, by simp [bodyKeys]⟩
  · intro xs a now r h
    unfold mark_as_approved at h
    cases hd : timestamp_to_string now a with
    | error e => simp only [hd] at h; exact Except.noConfusion h
    | ok s =>
      cases hl : list_to_list_of_integers xs with
      | error e => simp only [hd, hl] at h; exact Except.noConfusion h
      | ok ids =>
        simp only [hd, hl] at h
        injection h with h'
        subst h'
        exact ⟨rfl, by simp [bodyKeys]⟩
  · intro v r h
    unfold mark_as_unapproved at h
    injection h with h'
    subst h'
    exact ⟨rfl, by simp [bodyKeys]⟩
  · intro xs r h
    unfold mark_as_unapproved at h
    cases hl : list_to_list_of_integers xs with
    | error e => simp only [hl] at h; exact Except.noConfusion h
    | ok ids =>
      simp only [hl] at h
      injection h with h'
      subst h'
      exact ⟨rfl, by simp [bodyKeys]⟩

/-- Witness for C8: the comma-separated string `"5,6"` is not a list, so it
is interpolated verbatim into the singular path and no `entry_ids` body field
is sent; the list `[5, 6]` selects the bulk path with an `entry_ids` field. -/
theorem bulk_iff_list_routing_witness :
    ((⟨⟨"entries/5,6/unapproved", .PUT, none, some []⟩, Json.null⟩ : CallResult).request.uri =
        String.append "entries/" (String.append (pyIdToString (.str "5,6")) "/unapproved")
      ∧ ¬ "entry_ids" ∈ bodyKeys ⟨⟨"entries/5,6/unapproved", .PUT, none, some []⟩, Json.null⟩)
  ∧ ((⟨⟨"entries/unapproved", .PUT, none,
        some [("entry_ids", .arr [.num 5, .num 6])]⟩, Json.null⟩ : CallResult).request.uri =
        "entries/unapproved"
      ∧ "entry_ids" ∈ bodyKeys ⟨⟨"entries/unapproved", .PUT, none,
          some [("entry_ids", .arr [.num 5, .num 6])]⟩, Json.null⟩) :=
  ⟨(bulk_iff_list_routing nullTransport).2.2.2.2.1 (.str "5,6")
    ⟨⟨"entries/5,6/unapproved", .PUT, none, some []⟩, Json.null⟩ (by rfl),
   (bulk_iff_list_routing nullTransport).2.2.2.2.2.1 [.int 5, .int 6]
    ⟨⟨"entries/unapproved", .PUT, none,
      some [("entry_ids", .arr [.num 5, .num 6])]⟩, Json.null⟩ (by rfl)⟩

/-- C9: `mark_as_invoiced`, `mark_as_approved`, `mark_as_unapproved`,
`delete_entry`, `delete_single_tag`, `delete_tags` and
`merge_tag_into_this_tag` all return `None` on success, discarding the parsed
JSON the transport collaborator produced. -/
theorem mutation_methods_return_none : ∀ (t : Transport),
    (∀ e d r, mark_as_invoiced t e d = .ok r → r.retVal = Json.null)
  ∧ (∀ e a now r, mark_as_approved t e a now = .ok r → r.retVal = Json.null)
  ∧ (∀ e r, mark_as_unapproved t e = .ok r → r.retVal = Json.null)
  ∧ (∀ eid, (delete_entry t eid).retVal = Json.null)
  ∧ (∀ tid, (delete_single_tag t tid).retVal = Json.null)
  ∧ (∀ tids r, delete_tags t tids = .ok r → r.retVal = Json.null)
  ∧ (∀ a b, (merge_tag_into_this_tag t a b).retVal = Json.null) := by
  intro t
  refine ⟨?_, ?_, ?_, fun eid => rfl, fun tid => rfl, ?_, fun a b => rfl⟩
  · intro e d r h
    unfold mark_as_invoiced at h
    cases hd : date_to_string d with
    | error e2 => simp only [hd] at h; exact Except.noConfusion h
    | ok s =>
      cases e with
      | scalar v =>
        simp only [hd] at h
        injection h with h'
        subst h'
        rfl
      | list xs =>
        cases hl : list_to_list_of_integers xs with
        | error e2 => simp only [hd, hl] at h; exact Except.noConfusion h
        | ok ids =>
          simp only [hd, hl] at h
          injection h with h'
          subst h'
          rfl
  · intro e a now r h
    unfold mark_as_approved at h
    cases hd : timestamp_to_string now a with
    | error e2 => simp only [hd] at h; exact Except.noConfusion h
    | ok s =>
      cases e with
      | scalar v =>
        simp only [hd] at h
        injection h with h'
        subst h'
        rfl
      | list xs =>
        cases hl : list_to_list_of_integers xs with
        | error e2 => simp only [hd, hl] at h; exact Except.noConfusion h
        | ok ids =>
          simp only [hd, hl] at h
          injection h with h'
          subst h'
          rfl
  · intro e r h
    unfold mark_as_unapproved at h
    cases e with
    | scalar v =>
      injection h with h'
      subst h'
      rfl
    | list xs =>
      cases hl : list_to_list_of_integers xs with
      | error e2 => simp only [hl] at h; exact Except.noConfusion h
      | ok ids =>
        simp only [hl] at h
        injection h with h'
        subst h'
        rfl
  · intro tids r h
    unfold delete_tags at h
    cases hl : list_to_list_of_integers tids with
    | error e2 => simp only [hl] at h; exact Except.noConfusion h
    | ok ids =>
      simp only [hl] at h
      injection h with h'
      subst h'
      rfl

/-- Witness for C9: a successful scalar `mark_as_invoiced` call returns
`None`. -/
theorem mutation_methods_return_none_witness :
    (⟨⟨"entries/5/mark_as_invoiced", .PUT, none, some [("date", .str "2024-01-01")]⟩,
      Json.null⟩ : CallResult).retVal = Json.null :=
  (mutation_methods_return_none nullTransport).1 (.scalar (.int 5)) (.str "2024-01-01")
    ⟨⟨"entries/5/mark_as_invoiced", .PUT, none, some [("date", .str "2024-01-01")]⟩, Json.null⟩
    (by rfl)

/-- C10: `merge_tag_into_this_tag` always issues a PUT to
`tags/{tag_id}/merge` with body `{"tag_id": tag_to_merge_id}`, the merged tag
ID transmitted exactly as supplied, with no coercion or validation of either
tag ID argument. -/
theorem merge_tag_request_verbatim : ∀ (t : Transport) (a b : PyId),
    merge_tag_into_this_tag t a b =
      ⟨⟨String.append "tags/" (String.append (pyIdToString a) "/merge"),
        .PUT, none, some [("tag_id", pyIdToJson b)]⟩, Json.null⟩
  ∧ (∀ s, pyIdToJson (.str s) = Json.str s)
  ∧ (∀ n, pyIdToJson (.int n) = Json.num n) := by
  intro t a b
  exact ⟨rfl, fun s => rfl, fun n => rfl⟩

end Noko
